import Mathlib

/-!
Verification of the claude-voice-multiplexer relay server core against its
natural-language specification.

The development shallowly embeds the Python sources:
  * `src/relay-server/registry.py`   — session registry (`SessionRegistry`)
  * `src/relay-server/livekit_agent.py` — per-session conversation engine
    (`SessionRoom`): noise stripping, voice-command matching, the VAD
    segmentation loop, the TTS playback queue and the status state machine.

Mutable Python objects become explicit state passing; `time.time()` becomes
an explicit `now : Nat` parameter (milliseconds where frame arithmetic
matters, abstract ticks elsewhere); fallible collaborators (Whisper
transcription, WebSocket sends) become explicit `Option`/`Bool` inputs.
-/

set_option maxHeartbeats 1000000
set_option maxRecDepth 4000

/-! ## Configuration constants (src/relay-server/config.py defaults) -/

/-- `SESSION_TIMEOUT` (seconds), config.py line 32. -/
def SESSION_TIMEOUT : Nat := 600

/-- `SILENCE_THRESHOLD_MS`, config.py line 93. -/
def SILENCE_THRESHOLD_MS : Nat := 2500

/-- `MIN_SPEECH_DURATION_S = 0.5` expressed in milliseconds, config.py line 94. -/
def MIN_SPEECH_DURATION_MS : Nat := 500

/-- `MAX_RECORDING_S = 180` expressed in milliseconds, config.py line 97. -/
def MAX_RECORDING_MS : Nat := 180000

/-- `VAD_FRAME_MS`, livekit_agent.py line 42. -/
def VAD_FRAME_MS : Nat := 30

/-! ## Session registry (src/relay-server/registry.py)

A Python `dict[str, Session]` is embedded as an association list with
Python-dict semantics: unique keys, insertion order preserved, updating an
existing key keeps its position.  The WebSocket handle is an abstract
`Option Nat` (an id; `none` for a falsy handle). -/

structure Session where
  session_id : String
  name : String
  cwd : String
  dir_name : String
  ws : Option Nat
  created_at : Nat
  last_heartbeat : Nat
  connected_clients : List (String × String)
  deriving Repr, DecidableEq

/-- `make_room_name` (registry.py lines 10–17). -/
def make_room_name (session_id : String) : String :=
  "vmux_" ++ session_id

/-- `Session.room_name` property (registry.py lines 31–33). -/
def Session.room_name (s : Session) : String :=
  make_room_name s.session_id

/-- `Session.is_stale` property (registry.py lines 35–37):
`time.time() - self.last_heartbeat > SESSION_TIMEOUT` with `now` explicit. -/
def Session.is_stale (now : Nat) (s : Session) : Bool :=
  decide (SESSION_TIMEOUT < now - s.last_heartbeat)

/-- The dictionary produced by `Session.to_dict` (registry.py lines 39–52). -/
structure SessionInfo where
  session_id : String
  name : String
  cwd : String
  dir_name : String
  room_name : String
  connected_clients : List (String × String)
  created_at : Nat
  last_heartbeat : Nat
  deriving Repr, DecidableEq

/-- `Session.to_dict` (registry.py lines 39–52). -/
def Session.to_dict (s : Session) : SessionInfo :=
  { session_id := s.session_id
    name := s.name
    cwd := s.cwd
    dir_name := s.dir_name
    room_name := s.room_name
    connected_clients := s.connected_clients
    created_at := s.created_at
    last_heartbeat := s.last_heartbeat }

/-- The registry's session map `self._sessions : dict[str, Session]`. -/
def Registry : Type := List (String × Session)

/-- Python `dict.get`: first (unique) binding of the key. -/
def dictGet (m : List (String × Session)) (k : String) : Option Session :=
  match m with
  | [] => none
  | (k', v) :: rest => if k' = k then some v else dictGet rest k

/-- Python `d[k] = v`: overwrite in place (position kept) or append. -/
def dictSet (m : List (String × Session)) (k : String) (v : Session) :
    List (String × Session) :=
  match m with
  | [] => [(k, v)]
  | (k', v') :: rest =>
      if k' = k then (k, v) :: rest else (k', v') :: dictSet rest k v

/-- Python `d.pop(k, None)` / `del d[k]`: drop the binding of `k` (dict keys
are unique, so dropping every binding of `k` is the same operation). -/
def dictErase (m : List (String × Session)) (k : String) :
    List (String × Session) :=
  m.filter (fun p => p.1 ≠ k)

namespace SessionRegistry

/-- Result of `SessionRegistry.register` together with its side effects:
`closed` records the ws handles whose `close()` was attempted (best-effort,
inside `try/except`). -/
structure RegisterResult where
  registry : List (String × Session)
  session : Session
  is_reconnect : Bool
  closed : List Nat
  deriving Repr, DecidableEq

/-- `SessionRegistry.register` (registry.py lines 60–88).

`closeRaises` models whether `old.ws.close()` raises; the exception is
swallowed by the `try/except`, so the result cannot depend on it. -/
def register (reg : List (String × Session)) (session_id name cwd dir_name : String)
    (ws : Option Nat) (closeRaises : Bool) (now : Nat) : RegisterResult :=
  let old := dictGet reg session_id
  let is_reconnect := old.isSome
  -- "Close the old WebSocket if it's still open" — `if old and old.ws:`
  let closed : List Nat :=
    match old with
    | some o => (match o.ws with | some h => [h] | none => [])
    | none => []
  let session : Session :=
    { session_id := session_id
      name := name
      cwd := cwd
      dir_name := dir_name
      ws := ws
      created_at := now
      last_heartbeat := now
      -- "Preserve connected clients on reconnect"
      connected_clients :=
        match old with
        | some o => o.connected_clients
        | none => [] }
  let _ := closeRaises  -- exception from close() is ignored
  { registry := dictSet reg session_id session
    session := session
    is_reconnect := is_reconnect
    closed := closed }

/-- `SessionRegistry.unregister` (registry.py lines 90–92). -/
def unregister (reg : List (String × Session)) (session_id : String) :
    List (String × Session) :=
  dictErase reg session_id

/-- `SessionRegistry.heartbeat` (registry.py lines 94–97). -/
def heartbeat (reg : List (String × Session)) (session_id : String) (now : Nat) :
    List (String × Session) :=
  match dictGet reg session_id with
  | some s => dictSet reg session_id { s with last_heartbeat := now }
  | none => reg

/-- `SessionRegistry.get` (registry.py lines 99–100), in state-passing form:
it returns the (unchanged) registry together with the looked-up record. -/
def get (reg : List (String × Session)) (session_id : String) :
    List (String × Session) × Option Session :=
  (reg, dictGet reg session_id)

/-- `SessionRegistry._prune_stale` (registry.py lines 123–127): delete every
stale session, keeping the rest in order. -/
def prune_stale (reg : List (String × Session)) (now : Nat) :
    List (String × Session) :=
  reg.filter (fun p => ! p.2.is_stale now)

/-- `SessionRegistry.list_sessions` (registry.py lines 102–104): prune, then
return the remaining sessions' dicts (alongside the updated map). -/
def list_sessions (reg : List (String × Session)) (now : Nat) :
    List (String × Session) × List SessionInfo :=
  let reg' := prune_stale reg now
  (reg', reg'.map (fun p => p.2.to_dict))

/-- `SessionRegistry.connect_client` (registry.py lines 106–112). -/
def connect_client (reg : List (String × Session)) (session_id client_id device_name : String) :
    List (String × Session) × Bool :=
  match dictGet reg session_id with
  | some s =>
      let clients :=
        if s.connected_clients.any (fun p => p.1 = client_id) then
          s.connected_clients.map
            (fun p => if p.1 = client_id then (client_id, device_name) else p)
        else
          s.connected_clients ++ [(client_id, device_name)]
      (dictSet reg session_id { s with connected_clients := clients }, true)
  | none => (reg, false)

/-- `SessionRegistry.disconnect_client` (registry.py lines 114–121). -/
def disconnect_client (reg : List (String × Session)) (session_id : String)
    (client_id : Option String) : List (String × Session) :=
  match dictGet reg session_id with
  | some s =>
      match client_id with
      | some cid =>
          dictSet reg session_id
            { s with connected_clients :=
                s.connected_clients.filter (fun p => p.1 ≠ cid) }
      | none => dictSet reg session_id { s with connected_clients := [] }
  | none => reg

end SessionRegistry

/-! ### Dictionary lemmas -/

theorem dictGet_dictSet_self (m : List (String × Session)) (k : String) (v : Session) :
    dictGet (dictSet m k v) k = some v := by
  induction m with
  | nil => simp [dictGet, dictSet]
  | cons p rest ih =>
      obtain ⟨k', v'⟩ := p
      by_cases h : k' = k <;> simp [dictGet, dictSet, h, ih]

theorem dictGet_dictSet_ne (m : List (String × Session)) (k k' : String) (v : Session)
    (h : k ≠ k') : dictGet (dictSet m k v) k' = dictGet m k' := by
  induction m with
  | nil =>
      simp only [dictSet, dictGet]
      rw [if_neg h]
  | cons p rest ih =>
      obtain ⟨k₀, v₀⟩ := p
      by_cases h₀ : k₀ = k
      · subst h₀
        simp only [dictSet, if_pos rfl, dictGet]
        rw [if_neg h, if_neg h]
      · simp only [dictSet, if_neg h₀, dictGet]
        by_cases h₁ : k₀ = k'
        · rw [if_pos h₁, if_pos h₁]
        · rw [if_neg h₁, if_neg h₁, ih]

theorem dictGet_dictErase_self (m : List (String × Session)) (k : String) :
    dictGet (dictErase m k) k = none := by
  induction m with
  | nil => simp [dictGet, dictErase]
  | cons p rest ih =>
      obtain ⟨k₀, v₀⟩ := p
      by_cases h₀ : k₀ = k
      · subst h₀
        simpa [dictErase] using ih
      · simpa [dictErase, dictGet, h₀] using ih

theorem dictGet_dictErase_ne (m : List (String × Session)) (k k' : String)
    (h : k ≠ k') : dictGet (dictErase m k) k' = dictGet m k' := by
  induction m with
  | nil => simp [dictGet, dictErase]
  | cons p rest ih =>
      obtain ⟨k₀, v₀⟩ := p
      by_cases h₀ : k₀ = k
      · subst h₀
        have hne : ¬ k₀ = k' := h
        simpa [dictErase, dictGet, hne] using ih
      · by_cases h₁ : k₀ = k'
        · subst h₁
          simp [dictErase, dictGet, List.filter_cons, Ne.symm h]
        · simpa [dictErase, dictGet, h₀, h₁] using ih

/-! ## Claim theorems about the registry -/

/-- C1: re-registering an existing `session_id` returns `is_reconnect=true`,
attempts to close the prior transport handle (result independent of whether
that close raises), preserves the viewer set, resets `created_at` and
`last_heartbeat` to now, and stores a record whose only transport is the new
one; a fresh `session_id` yields a fresh record and `is_reconnect=false`. -/
theorem register_reconnect_semantics
    (reg : List (String × Session)) (sid name cwd dn : String)
    (ws : Option Nat) (b : Bool) (now : Nat) :
    (∀ old, dictGet reg sid = some old →
      (SessionRegistry.register reg sid name cwd dn ws b now).is_reconnect = true ∧
      (SessionRegistry.register reg sid name cwd dn ws b now).closed =
        (match old.ws with | some h => [h] | none => []) ∧
      (SessionRegistry.register reg sid name cwd dn ws b now).session.connected_clients =
        old.connected_clients ∧
      (SessionRegistry.register reg sid name cwd dn ws b now).session.created_at = now ∧
      (SessionRegistry.register reg sid name cwd dn ws b now).session.last_heartbeat = now ∧
      (SessionRegistry.register reg sid name cwd dn ws b now).session.ws = ws ∧
      dictGet (SessionRegistry.register reg sid name cwd dn ws b now).registry sid =
        some (SessionRegistry.register reg sid name cwd dn ws b now).session) ∧
    (dictGet reg sid = none →
      (SessionRegistry.register reg sid name cwd dn ws b now).is_reconnect = false ∧
      (SessionRegistry.register reg sid name cwd dn ws b now).closed = [] ∧
      (SessionRegistry.register reg sid name cwd dn ws b now).session =
        { session_id := sid, name := name, cwd := cwd, dir_name := dn, ws := ws,
          created_at := now, last_heartbeat := now, connected_clients := [] } ∧
      dictGet (SessionRegistry.register reg sid name cwd dn ws b now).registry sid =
        some (SessionRegistry.register reg sid name cwd dn ws b now).session) ∧
    (∀ b', SessionRegistry.register reg sid name cwd dn ws b' now =
      SessionRegistry.register reg sid name cwd dn ws b now) := by
  refine ⟨?_, ?_, ?_⟩
  · intro old hold
    simp [SessionRegistry.register, hold, Option.isSome, dictGet_dictSet_self]
  · intro hnone
    simp [SessionRegistry.register, hnone, Option.isSome, dictGet_dictSet_self]
  · intro b'
    simp [SessionRegistry.register]

/-- Witness for `register_reconnect_semantics`: a registry holding session
"abc" (with a live ws handle 7 and one viewer) re-registered with ws 9
reconnects; the unknown id "zzz" registers fresh. -/
theorem register_reconnect_semantics_witness :
    (SessionRegistry.register
        [("abc", { session_id := "abc", name := "n", cwd := "/p", dir_name := "p",
                   ws := some 7, created_at := 3, last_heartbeat := 3,
                   connected_clients := [("v1", "Phone")] })]
        "abc" "n" "/p" "p" (some 9) false 42).is_reconnect = true ∧
    (SessionRegistry.register
        [("abc", { session_id := "abc", name := "n", cwd := "/p", dir_name := "p",
                   ws := some 7, created_at := 3, last_heartbeat := 3,
                   connected_clients := [("v1", "Phone")] })]
        "abc" "n" "/p" "p" (some 9) false 42).closed = [7] ∧
    (SessionRegistry.register
        [("abc", { session_id := "abc", name := "n", cwd := "/p", dir_name := "p",
                   ws := some 7, created_at := 3, last_heartbeat := 3,
                   connected_clients := [("v1", "Phone")] })]
        "abc" "n" "/p" "p" (some 9) false 42).session.connected_clients = [("v1", "Phone")] ∧
    (SessionRegistry.register [] "zzz" "n" "/q" "q" (some 1) false 5).is_reconnect = false := by
  have h₁ := (register_reconnect_semantics
    [("abc", { session_id := "abc", name := "n", cwd := "/p", dir_name := "p",
               ws := some 7, created_at := 3, last_heartbeat := 3,
               connected_clients := [("v1", "Phone")] })]
    "abc" "n" "/p" "p" (some 9) false 42).1
    { session_id := "abc", name := "n", cwd := "/p", dir_name := "p",
      ws := some 7, created_at := 3, last_heartbeat := 3,
      connected_clients := [("v1", "Phone")] } (by decide)
  have h₂ := ((register_reconnect_semantics [] "zzz" "n" "/q" "q" (some 1) false 5).2.1
    (by decide))
  exact ⟨h₁.1, h₁.2.1, h₁.2.2.1, h₂.1⟩

theorem dictGet_dictSet_isSome (m : List (String × Session)) (k : String) (v : Session)
    (h : (dictGet m k).isSome = true) (k' : String) :
    (dictGet (dictSet m k v) k').isSome = (dictGet m k').isSome := by
  by_cases hk : k = k'
  · subst hk
    rw [dictGet_dictSet_self, h]
    rfl
  · rw [dictGet_dictSet_ne m k k' v hk]

/-- C4: listing first evicts exactly the sessions with
`now − last_heartbeat > SESSION_TIMEOUT` (keeping the remainder, in order,
and returning their dicts), and no other registry operation — register,
unregister, heartbeat, get, viewer attach/detach — ever removes a session
for staleness: each one's effect on key presence is exactly its explicit
insertion/removal, independent of any heartbeat age. -/
theorem list_sessions_sole_eviction_path (reg : List (String × Session)) (now : Nat) :
    ((SessionRegistry.list_sessions reg now).1 =
        reg.filter (fun p => decide (now - p.2.last_heartbeat ≤ SESSION_TIMEOUT))) ∧
    ((SessionRegistry.list_sessions reg now).2 =
        (SessionRegistry.list_sessions reg now).1.map (fun p => p.2.to_dict)) ∧
    ((SessionRegistry.list_sessions reg now).1.Sublist reg) ∧
    (∀ sid n c d ws b k,
      (dictGet (SessionRegistry.register reg sid n c d ws b now).registry k).isSome =
        ((dictGet reg k).isSome || decide (k = sid))) ∧
    (∀ sid k, (dictGet (SessionRegistry.unregister reg sid) k).isSome =
        ((dictGet reg k).isSome && ! decide (k = sid))) ∧
    (∀ sid k, (dictGet (SessionRegistry.heartbeat reg sid now) k).isSome =
        (dictGet reg k).isSome) ∧
    (∀ sid, (SessionRegistry.get reg sid).1 = reg) ∧
    (∀ sid cid dev k, (dictGet (SessionRegistry.connect_client reg sid cid dev).1 k).isSome =
        (dictGet reg k).isSome) ∧
    (∀ sid cid k, (dictGet (SessionRegistry.disconnect_client reg sid cid) k).isSome =
        (dictGet reg k).isSome) := by
  refine ⟨?_, rfl, ?_, ?_, ?_, ?_, fun _ => rfl, ?_, ?_⟩
  · unfold SessionRegistry.list_sessions SessionRegistry.prune_stale
    simp only
    apply List.filter_congr
    intro p _
    simp only [Session.is_stale]
    rw [← decide_not, decide_eq_decide]
    exact Nat.not_lt
  · exact List.filter_sublist reg
  · intro sid n c d ws b k
    by_cases hk : k = sid
    · subst hk
      simp [SessionRegistry.register, dictGet_dictSet_self]
    · simp only [SessionRegistry.register]
      rw [dictGet_dictSet_ne reg sid k _ (fun h => hk h.symm)]
      simp [hk]
  · intro sid k
    by_cases hk : k = sid
    · subst hk
      simp [SessionRegistry.unregister, dictGet_dictErase_self]
    · rw [SessionRegistry.unregister, dictGet_dictErase_ne reg sid k (fun h => hk h.symm)]
      simp [hk]
  · intro sid k
    unfold SessionRegistry.heartbeat
    cases hget : dictGet reg sid with
    | none => rfl
    | some s =>
        exact dictGet_dictSet_isSome reg sid _ (by rw [hget]; rfl) k
  · intro sid cid dev k
    unfold SessionRegistry.connect_client
    cases hget : dictGet reg sid with
    | none => rfl
    | some s =>
        simp only
        exact dictGet_dictSet_isSome reg sid _ (by rw [hget]; rfl) k
  · intro sid cid k
    unfold SessionRegistry.disconnect_client
    cases hget : dictGet reg sid with
    | none => rfl
    | some s =>
        cases cid with
        | none => exact dictGet_dictSet_isSome reg sid _ (by rw [hget]; rfl) k
        | some c => exact dictGet_dictSet_isSome reg sid _ (by rw [hget]; rfl) k

/-- C10: `get` never mutates the registry — it returns the stored record
(even a stale one) and leaves the session map, all timestamps and all viewer
sets unchanged. -/
theorem get_never_mutates (reg : List (String × Session)) (sid : String) :
    ((SessionRegistry.get reg sid).1 = reg) ∧
    ((SessionRegistry.get reg sid).2 = dictGet reg sid) ∧
    (∀ now s, dictGet reg sid = some s → s.is_stale now = true →
      (SessionRegistry.get reg sid).2 = some s ∧ (SessionRegistry.get reg sid).1 = reg) := by
  exact ⟨rfl, rfl, fun now s h _ => ⟨by rw [SessionRegistry.get, h], rfl⟩⟩

/-- Witness for `get_never_mutates`: looking up a session whose heartbeat is
1000 ticks old (stale, since `SESSION_TIMEOUT = 600`) still returns it and
leaves the registry untouched. -/
theorem get_never_mutates_witness :
    (SessionRegistry.get
        [("abc", { session_id := "abc", name := "n", cwd := "/p", dir_name := "p",
                   ws := some 7, created_at := 0, last_heartbeat := 0,
                   connected_clients := [] })] "abc").2 =
      some { session_id := "abc", name := "n", cwd := "/p", dir_name := "p",
             ws := some 7, created_at := 0, last_heartbeat := 0,
             connected_clients := [] } ∧
    (SessionRegistry.get
        [("abc", { session_id := "abc", name := "n", cwd := "/p", dir_name := "p",
                   ws := some 7, created_at := 0, last_heartbeat := 0,
                   connected_clients := [] })] "abc").1 =
      [("abc", { session_id := "abc", name := "n", cwd := "/p", dir_name := "p",
                 ws := some 7, created_at := 0, last_heartbeat := 0,
                 connected_clients := [] })] :=
  (get_never_mutates
      [("abc", { session_id := "abc", name := "n", cwd := "/p", dir_name := "p",
                 ws := some 7, created_at := 0, last_heartbeat := 0,
                 connected_clients := [] })] "abc").2.2 1000
    { session_id := "abc", name := "n", cwd := "/p", dir_name := "p",
      ws := some 7, created_at := 0, last_heartbeat := 0,
      connected_clients := [] } (by decide) (by decide)


/-! ## Voice-activity segmenter (livekit_agent.py, `_process_audio_stream`,
lines 299–363)

The per-stream loop locals (`speech_detected`, `silence_ms`,
`speech_start_time`) and the instance buffer `self._audio_buffer` form the
segmenter state; one loop iteration over an ingested frame (i.e. one that
passed the suppression `continue`s on lines 314–319, which leave the state
untouched) becomes `processFrame`.  Frames are abstracted to their index
and times are in milliseconds.  `speech_start_time` is a `time.time()`
value, which is always positive, so its Python truthiness test is an
`isSome` test here. -/

structure SegState where
  audio_buffer : List Nat
  speech_detected : Bool
  silence_ms : Nat
  speech_start_time : Option Nat
  deriving Repr, DecidableEq

/-- The state on entry to `_process_audio_stream` (lines 305–308). -/
def segInit : SegState :=
  { audio_buffer := [], speech_detected := false, silence_ms := 0,
    speech_start_time := none }

/-- The end-of-speech check (lines 345–363): guarded by
`speech_detected and speech_start_time`, fires on
`timed_out or silence_ended` and then drains the buffer and resets all
segmentation state. -/
def segCheck (buf : List Nat) (silence_ms : Nat) (start : Option Nat)
    (detected : Bool) (now : Nat) : SegState × Bool :=
  match detected, start with
  | true, some t0 =>
      if MAX_RECORDING_MS ≤ now - t0 ∨
          (SILENCE_THRESHOLD_MS ≤ silence_ms ∧ MIN_SPEECH_DURATION_MS ≤ now - t0) then
        ({ audio_buffer := [], speech_detected := false, silence_ms := 0,
           speech_start_time := none }, true)
      else
        ({ audio_buffer := buf, speech_detected := detected,
           silence_ms := silence_ms, speech_start_time := start }, false)
  | d, s0 =>
      ({ audio_buffer := buf, speech_detected := d,
         silence_ms := silence_ms, speech_start_time := s0 }, false)

/-- One iteration of the `async for` body for an ingested frame at wall-clock
`now` (ms), classified `is_speech` by `_detect_speech` (lines 321–363):
append the frame to the buffer, update the speech/silence trackers, then run
the end-of-speech check.  Returns the new state and whether "utterance
ended" fired. -/
def processFrame (st : SegState) (now fid : Nat) (is_speech : Bool) :
    SegState × Bool :=
  let buf := st.audio_buffer ++ [fid]
  if is_speech then
    segCheck buf 0 (if st.speech_detected then st.speech_start_time else some now)
      true now
  else if st.speech_detected then
    segCheck buf (st.silence_ms + VAD_FRAME_MS) st.speech_start_time true now
  else
    segCheck buf st.silence_ms st.speech_start_time false now

/-- Run the loop over a list of `(now, frameId, is_speech)` frames, collecting
the ids of the frames at which "utterance ended" fired. -/
def runSeg : SegState → List (Nat × Nat × Bool) → SegState × List Nat
  | st, [] => (st, [])
  | st, (now, fid, sp) :: rest =>
      let r := processFrame st now fid sp
      let rr := runSeg r.1 rest
      (rr.1, (if r.2 then [fid] else []) ++ rr.2)

/-- Structural invariant of the loop: whenever no speech run is open, there
is no start timestamp (true initially and re-established by every reset). -/
def SegInv (st : SegState) : Prop :=
  st.speech_detected = false → st.speech_start_time = none

theorem segCheck_not_detected (buf : List Nat) (sil : Nat) (s0 : Option Nat) (now : Nat) :
    segCheck buf sil s0 false now =
      ({ audio_buffer := buf, speech_detected := false, silence_ms := sil,
         speech_start_time := s0 }, false) := by
  cases s0 <;> rfl

theorem segCheck_no_start (buf : List Nat) (sil : Nat) (d : Bool) (now : Nat) :
    segCheck buf sil none d now =
      ({ audio_buffer := buf, speech_detected := d, silence_ms := sil,
         speech_start_time := none }, false) := by
  cases d <;> rfl

theorem segCheck_survivor_bound (buf : List Nat) (sil t0' now t0 : Nat)
    (h : (segCheck buf sil (some t0') true now).1.speech_start_time = some t0) :
    now - t0 < MAX_RECORDING_MS := by
  simp only [segCheck] at h
  split at h
  · simp at h
  · next hcond =>
      push_neg at hcond
      simp only at h
      cases h
      exact hcond.1

theorem segCheck_inv (buf : List Nat) (sil : Nat) (s0 : Option Nat) (d : Bool)
    (now : Nat) (h : d = false → s0 = none) :
    SegInv (segCheck buf sil s0 d now).1 := by
  cases d with
  | false =>
      rw [segCheck_not_detected]
      intro _
      exact h rfl
  | true =>
      cases s0 with
      | none =>
          rw [segCheck_no_start]
          intro hc
          cases hc
      | some t0 =>
          simp only [segCheck]
          split
          · intro _; rfl
          · intro hc; cases hc

theorem processFrame_preserves_inv (st : SegState) (now fid : Nat) (sp : Bool)
    (h : SegInv st) : SegInv (processFrame st now fid sp).1 := by
  unfold processFrame
  cases sp with
  | true =>
      simp only [if_pos]
      apply segCheck_inv
      intro hc
      cases hc
  | false =>
      simp only [Bool.false_eq_true, if_neg, not_false_iff]
      cases hd : st.speech_detected with
      | true =>
          simp only [if_pos]
          apply segCheck_inv
          intro hc
          cases hc
      | false =>
          simp only [Bool.false_eq_true, if_neg, not_false_iff]
          apply segCheck_inv
          intro _
          exact h hd

theorem processFrame_cap_bound (st : SegState) (now fid : Nat) (sp : Bool)
    (h : SegInv st) (t0 : Nat)
    (h0 : (processFrame st now fid sp).1.speech_start_time = some t0) :
    now - t0 < MAX_RECORDING_MS := by
  unfold processFrame at h0
  cases sp with
  | true =>
      simp only [if_pos] at h0
      cases hd : st.speech_detected with
      | true =>
          rw [hd] at h0
          simp only [if_pos] at h0
          cases hst : st.speech_start_time with
          | none =>
              rw [hst, segCheck_no_start] at h0
              cases h0
          | some t1 =>
              rw [hst] at h0
              exact segCheck_survivor_bound _ _ t1 now t0 h0
      | false =>
          rw [hd] at h0
          simp only [Bool.false_eq_true, if_neg, not_false_iff] at h0
          exact segCheck_survivor_bound _ _ now now t0 h0
  | false =>
      simp only [Bool.false_eq_true, if_neg, not_false_iff] at h0
      cases hd : st.speech_detected with
      | true =>
          rw [hd] at h0
          simp only [if_pos] at h0
          cases hst : st.speech_start_time with
          | none =>
              rw [hst, segCheck_no_start] at h0
              cases h0
          | some t1 =>
              rw [hst] at h0
              exact segCheck_survivor_bound _ _ t1 now t0 h0
      | false =>
          rw [hd] at h0
          simp only [Bool.false_eq_true, if_neg, not_false_iff] at h0
          rw [segCheck_not_detected] at h0
          simp only at h0
          rw [h hd] at h0
          cases h0

theorem runSeg_append (st : SegState) (l₁ l₂ : List (Nat × Nat × Bool)) :
    (runSeg st (l₁ ++ l₂)).1 = (runSeg (runSeg st l₁).1 l₂).1 := by
  induction l₁ generalizing st with
  | nil => rfl
  | cons x rest ih =>
      obtain ⟨now, fid, sp⟩ := x
      simp only [List.cons_append, runSeg]
      exact ih (processFrame st now fid sp).1

theorem runSeg_preserves_inv (st : SegState) (l : List (Nat × Nat × Bool))
    (h : SegInv st) : SegInv (runSeg st l).1 := by
  induction l generalizing st with
  | nil => exact h
  | cons x rest ih =>
      obtain ⟨now, fid, sp⟩ := x
      exact ih _ (processFrame_preserves_inv st now fid sp h)

/-- C5: the hard recording cap.  (i) Whenever a speech run is open with start
`t0` and a frame arrives at time `now` with `now − t0 ≥ MAX_RECORDING_MS`,
the segmenter fires "utterance ended" and fully resets (buffer drained,
trackers cleared) — independently of the frame's speech/silence
classification and of the silence run.  (ii) On any input frame sequence
started from the initial state, a surviving speech run never reaches age
`MAX_RECORDING_MS`: after processing a frame at time `now`, any open run's
start `t0` satisfies `now − t0 < MAX_RECORDING_MS`. -/
theorem segmenter_hard_cap :
    (∀ (st : SegState) (now fid : Nat) (sp : Bool) (t0 : Nat),
      st.speech_detected = true → st.speech_start_time = some t0 →
      MAX_RECORDING_MS ≤ now - t0 →
      processFrame st now fid sp =
        ({ audio_buffer := [], speech_detected := false, silence_ms := 0,
           speech_start_time := none }, true)) ∧
    (∀ (pre : List (Nat × Nat × Bool)) (now fid : Nat) (sp : Bool) (t0 : Nat),
      (runSeg segInit (pre ++ [(now, fid, sp)])).1.speech_start_time = some t0 →
      now - t0 < MAX_RECORDING_MS) := by
  constructor
  · intro st now fid sp t0 hd hs hcap
    unfold processFrame segCheck
    cases sp <;> simp [hd, hs, hcap]
  · intro pre now fid sp t0 h
    rw [runSeg_append] at h
    have hinv : SegInv (runSeg segInit pre).1 :=
      runSeg_preserves_inv segInit pre (fun _ => rfl)
    exact processFrame_cap_bound _ now fid sp hinv t0 h

/-- Witness for `segmenter_hard_cap`: (i) with an open run started at 0, a
speech frame arriving at 180000 ms fires and fully resets the segmenter;
(ii) after the two-frame run `[(0,0,speech),(30,1,speech)]` the open run's
age 30 is below the cap. -/
theorem segmenter_hard_cap_witness :
    (processFrame
        { audio_buffer := [0], speech_detected := true, silence_ms := 0,
          speech_start_time := some 0 } 180000 1 true =
      ({ audio_buffer := [], speech_detected := false, silence_ms := 0,
         speech_start_time := none }, true)) ∧ 30 - 0 < MAX_RECORDING_MS := by
  constructor
  · exact segmenter_hard_cap.1
      { audio_buffer := [0], speech_detected := true, silence_ms := 0,
        speech_start_time := some 0 } 180000 1 true 0 rfl rfl (by decide)
  · exact segmenter_hard_cap.2 [(0, 0, true)] 30 1 true 0 (by decide)

/-- The C6 scenario: 130 frames, 30 ms apart, frames 0–39 classified speech
and frames 40–129 classified silence. -/
def scenarioFrames : List (Nat × Nat × Bool) :=
  (List.range 130).map (fun i => (30 * i, i, decide (i < 40)))

/-- C6: with `SILENCE_THRESHOLD_MS = 2500`, `MIN_SPEECH_DURATION_S = 0.5` and
30 ms frames, 40 speech frames followed by 90 silence frames fire "utterance
ended" exactly once, at silence-phase frame 83 (0-indexed; global frame
40 + 83, the frame at which the silence run first reaches 2500 ms:
84 · 30 = 2520), and at no earlier frame. -/
theorem segmenter_scenario_fires_at_83 :
    (runSeg segInit scenarioFrames).2 = [40 + 83] := by decide

/-! ## SessionRoom status state machine (livekit_agent.py, class `SessionRoom`)

The mutable `SessionRoom` fields relevant to status handling become a
record; the external callbacks (`notify_status_fn`, `notify_transcript_fn`),
the forward over the session WebSocket and `registry.unregister` become an
append-only effect log.  Every handler takes the wall clock `now`
explicitly. -/

/-- Externally visible actions of a `SessionRoom`. -/
inductive Effect
  | notify_status (state : String) (activity : Option String) (disable_auto_listen : Bool)
  | notify_transcript (role text : String)
  | forward_to_session (text caller : String)
  | unregister_session
  | schedule_error_recovery
  deriving Repr, DecidableEq

/-- Python truthiness of `Optional[str]` (`None` and `""` are falsy). -/
def optStrTruthy : Option String → Bool
  | none => false
  | some s => decide (s ≠ "")

structure RoomState where
  session_id : String
  is_speaking : Bool
  waiting_for_response : Bool
  speaking_ended_at : Nat
  current_state : String
  current_activity : Option String
  pending_listening : Option String
  pending_listening_at : Nat
  idle_entered_at : Nat
  last_status_update_at : Nat
  response_queue : List String
  audio_buffer : List Nat
  emitted : List Effect
  deriving Repr, DecidableEq

/-- `SessionRoom.__init__` field values (lines 164–196). -/
def roomInit (session_id : String) : RoomState :=
  { session_id := session_id, is_speaking := false, waiting_for_response := false,
    speaking_ended_at := 0, current_state := "idle", current_activity := none,
    pending_listening := none, pending_listening_at := 0, idle_entered_at := 0,
    last_status_update_at := 0, response_queue := [], audio_buffer := [],
    emitted := [] }

namespace SessionRoom

/-- `SessionRoom._notify_status` (lines 587–594); the status callback is
attached by the relay server, so the notification is recorded
unconditionally. -/
def notify_status (st : RoomState) (state : String) (activity : Option String)
    (disable_auto_listen : Bool) (now : Nat) : RoomState :=
  { st with
      current_state := state
      current_activity := activity
      idle_entered_at := if state = "idle" then now else st.idle_entered_at
      emitted := st.emitted ++ [.notify_status state activity disable_auto_listen] }

/-- `SessionRoom.handle_claude_response` (lines 459–461): enqueue the reply
text for the serialized playback worker. -/
def handle_claude_response (st : RoomState) (text : String) : RoomState :=
  { st with response_queue := st.response_queue ++ [text] }

/-- The playback worker's dequeue (`await self._response_queue.get()`,
line 467): the head of the FIFO queue and the state without it. -/
def worker_take (st : RoomState) : Option String × RoomState :=
  (st.response_queue.head?, { st with response_queue := st.response_queue.tail })

/-- Start of `SessionRoom._play_tts_response` (lines 478–480):
`is_speaking := true`, remember `tts_started_at = now`, announce "speaking". -/
def play_tts_begin (st : RoomState) (now : Nat) : RoomState :=
  notify_status { st with is_speaking := true } "speaking" none false now

/-- The `finally` block of `SessionRoom._play_tts_response` (lines 510–532),
run when a playback cycle completes. -/
def play_tts_finish (st : RoomState) (tts_started_at now : Nat) : RoomState :=
  let st' := { st with is_speaking := false, speaking_ended_at := now,
                       audio_buffer := [] }
  -- "If more responses are queued, stay in speaking/thinking — don't go idle."
  if ! st'.response_queue.isEmpty then st'
  else if optStrTruthy st'.pending_listening &&
      decide (st'.last_status_update_at ≤ st'.pending_listening_at) then
    -- "Claude called relay_standby during TTS and no newer work started"
    notify_status
      { st' with pending_listening := none, waiting_for_response := false,
                 current_activity := none } "idle" none false now
  else if decide (tts_started_at < st'.last_status_update_at) then
    -- "Claude sent a status update during TTS — still working"
    notify_status { st' with pending_listening := none } "thinking"
      st'.current_activity false now
  else
    notify_status { st' with pending_listening := none } "thinking"
      (some "Waiting for Claude...") false now

/-- `SessionRoom.handle_claude_listening` (lines 534–544). -/
def handle_claude_listening (st : RoomState) (now : Nat) : RoomState :=
  if st.is_speaking || ! st.response_queue.isEmpty then
    -- "TTS is playing or responses are queued — defer the idle transition"
    { st with pending_listening := some st.session_id, pending_listening_at := now }
  else
    notify_status
      { st with waiting_for_response := false, current_activity := none }
      "idle" none false now

/-- `SessionRoom.handle_status_update` (lines 551–555). -/
def handle_status_update (st : RoomState) (activity : String) (now : Nat) : RoomState :=
  notify_status
    { st with last_status_update_at := now, current_activity := some activity }
    "thinking" (some activity) false now

end SessionRoom

/-- C2 as stated is false: the claim lets the "listening again" signal (t1)
and the newer activity update (t2 > t1) be recorded while a reply is merely
*queued* (`is_speaking` false, queue non-empty).  The playback cycle that
then completes started only after t2, so `_last_status_update_at >
tts_started_at` fails and the code shows the generic "Waiting for Claude..."
label instead of the newer activity.  Concretely: reply queued, listening at
t=1, activity "deploying" at t=2, worker dequeues and starts playback at
t=3, finishes at t=6 with the queue empty — the post-playback activity is
"Waiting for Claude...", not "deploying" (the pending-listen signal is
cleared, and the state is `thinking`, as claimed). -/
theorem pending_listen_counterexample :
    (SessionRoom.play_tts_finish
      (SessionRoom.play_tts_begin
        (SessionRoom.worker_take
          (SessionRoom.handle_status_update
            (SessionRoom.handle_claude_listening
              (SessionRoom.handle_claude_response (roomInit "abc123") "reply")
              1)
            "deploying" 2)).2
        3)
      3 6).current_state = "thinking" ∧
    (SessionRoom.play_tts_finish
      (SessionRoom.play_tts_begin
        (SessionRoom.worker_take
          (SessionRoom.handle_status_update
            (SessionRoom.handle_claude_listening
              (SessionRoom.handle_claude_response (roomInit "abc123") "reply")
              1)
            "deploying" 2)).2
        3)
      3 6).current_activity = some "Waiting for Claude..." ∧
    (SessionRoom.play_tts_finish
      (SessionRoom.play_tts_begin
        (SessionRoom.worker_take
          (SessionRoom.handle_status_update
            (SessionRoom.handle_claude_listening
              (SessionRoom.handle_claude_response (roomInit "abc123") "reply")
              1)
            "deploying" 2)).2
        3)
      3 6).current_activity ≠ some "deploying" := by
  refine ⟨rfl, rfl, ?_⟩
  decide

/-- C2 (amended): if the "listening again" signal (t1) and the strictly later
activity update (t2 > t1) are both recorded during the playback cycle that
completes (one that began at t0 ≤ t1), and the queue is empty at completion,
then the post-playback status is `thinking` carrying the newer activity
label — not `idle` — and the pending-listen signal is cleared. -/
theorem pending_listen_amended (st : RoomState) (t0 t1 t2 t3 : Nat) (lbl : String)
    (hq : st.response_queue = []) (h01 : t0 ≤ t1) (h12 : t1 < t2) :
    (SessionRoom.play_tts_finish
      (SessionRoom.handle_status_update
        (SessionRoom.handle_claude_listening (SessionRoom.play_tts_begin st t0) t1)
        lbl t2)
      t0 t3).current_state = "thinking" ∧
    (SessionRoom.play_tts_finish
      (SessionRoom.handle_status_update
        (SessionRoom.handle_claude_listening (SessionRoom.play_tts_begin st t0) t1)
        lbl t2)
      t0 t3).current_activity = some lbl ∧
    (SessionRoom.play_tts_finish
      (SessionRoom.handle_status_update
        (SessionRoom.handle_claude_listening (SessionRoom.play_tts_begin st t0) t1)
        lbl t2)
      t0 t3).pending_listening = none := by
  have hscond : (SessionRoom.play_tts_begin st t0).is_speaking = true := rfl
  simp only [SessionRoom.play_tts_begin, SessionRoom.notify_status,
    SessionRoom.handle_claude_listening, SessionRoom.handle_status_update,
    SessionRoom.play_tts_finish] at *
  have h2le1 : ¬ (t2 ≤ t1) := Nat.not_le.mpr h12
  have h02 : t0 < t2 := Nat.lt_of_le_of_lt h01 h12
  simp [hq, h2le1, h02]

/-- Witness for `pending_listen_amended` at t0 = 5, t1 = 6, t2 = 7. -/
theorem pending_listen_amended_witness :
    (SessionRoom.play_tts_finish
      (SessionRoom.handle_status_update
        (SessionRoom.handle_claude_listening
          (SessionRoom.play_tts_begin (roomInit "abc123") 5) 6)
        "reading files" 7)
      5 20).current_state = "thinking" ∧
    (SessionRoom.play_tts_finish
      (SessionRoom.handle_status_update
        (SessionRoom.handle_claude_listening
          (SessionRoom.play_tts_begin (roomInit "abc123") 5) 6)
        "reading files" 7)
      5 20).current_activity = some "reading files" ∧
    (SessionRoom.play_tts_finish
      (SessionRoom.handle_status_update
        (SessionRoom.handle_claude_listening
          (SessionRoom.play_tts_begin (roomInit "abc123") 5) 6)
        "reading files" 7)
      5 20).pending_listening = none :=
  pending_listen_amended (roomInit "abc123") 5 6 7 20 "reading files" rfl
    (by decide) (by decide)

/-! ## Regular-expression engine (for `strip_noise` and `match_voice_command`)

`livekit_agent.py` compiles its noise patterns (lines 65–120) and voice
command pattern (lines 135–143) with Python `re` under `IGNORECASE`.  The
constructs those patterns use — case-insensitive literals, single-char
classes, greedy `+`/`*` over a class, greedy `(?:...)?`, concatenation and
ordered alternation — are embedded as `RE`.  `matchList r s` enumerates
every suffix of `s` remaining after a match of `r` at its start, in exactly
Python's backtracking priority order (greedy first, left alternative
first), so `(matchList r s).head?` is the match Python's engine commits
to. -/

inductive RE where
  | fail
  | lit (l : List Char)
  | cls (p : Char → Bool)
  | plus (p : Char → Bool)
  | star (p : Char → Bool)
  | opt (r : RE)
  | cat (r₁ r₂ : RE)
  | alt (r₁ r₂ : RE)

/-- Length of the leading run of characters satisfying `p`. -/
def countLeading (p : Char → Bool) : List Char → Nat
  | [] => 0
  | c :: rest => if p c then countLeading p rest + 1 else 0

/-- All suffixes remaining after a match of `r` at the start of `s`, in
backtracking priority order.  Literals are stored lowercase and compared
case-insensitively (`IGNORECASE`). -/
def matchList : RE → List Char → List (List Char)
  | .fail, _ => []
  | .lit l, s =>
      if (s.take l.length).map Char.toLower = l then [s.drop l.length] else []
  | .cls _, [] => []
  | .cls p, c :: rest => if p c then [rest] else []
  | .plus p, s =>
      let run := countLeading p s
      (List.range run).map (fun i => s.drop (run - i))
  | .star p, s =>
      let run := countLeading p s
      (List.range (run + 1)).map (fun i => s.drop (run - i))
  | .opt r, s => matchList r s ++ [s]
  | .cat r₁ r₂, s => (matchList r₁ s).flatMap (matchList r₂)
  | .alt r₁ r₂, s => matchList r₁ s ++ matchList r₂ s

/-- The language of `r`: which consumed strings a match can stand for. -/
def Lang : RE → List Char → Prop
  | .fail, _ => False
  | .lit l, u => u.map Char.toLower = l
  | .cls p, u => ∃ c, u = [c] ∧ p c = true
  | .plus p, u => u ≠ [] ∧ ∀ c ∈ u, p c = true
  | .star p, u => ∀ c ∈ u, p c = true
  | .opt r, u => Lang r u ∨ u = []
  | .cat r₁ r₂, u => ∃ v w, u = v ++ w ∧ Lang r₁ v ∧ Lang r₂ w
  | .alt r₁ r₂, u => Lang r₁ u ∨ Lang r₂ u

theorem countLeading_le_length (p : Char → Bool) (s : List Char) :
    countLeading p s ≤ s.length := by
  induction s with
  | nil => exact Nat.le_refl 0
  | cons c rest ih =>
      simp only [countLeading, List.length_cons]
      split
      · exact Nat.succ_le_succ ih
      · exact Nat.zero_le _

theorem mem_take_countLeading (p : Char → Bool) (s : List Char) (k : Nat)
    (hk : k ≤ countLeading p s) (c : Char) (hc : c ∈ s.take k) : p c = true := by
  induction s generalizing k with
  | nil => simp at hc
  | cons c₀ rest ih =>
      cases k with
      | zero => simp at hc
      | succ k' =>
          simp only [countLeading] at hk
          split at hk
          · next hp =>
              simp only [List.take_succ_cons, List.mem_cons] at hc
              rcases hc with rfl | hc
              · exact hp
              · exact ih k' (Nat.le_of_succ_le_succ hk) hc
          · exact absurd hk (Nat.not_succ_le_zero k')

theorem countLeading_append_ge (p : Char → Bool) (u t : List Char)
    (hall : ∀ c ∈ u, p c = true) : u.length ≤ countLeading p (u ++ t) := by
  induction u with
  | nil => exact Nat.zero_le _
  | cons c rest ih =>
      simp only [List.cons_append, countLeading, List.length_cons]
      rw [if_pos (hall c (List.mem_cons_self c rest))]
      exact Nat.succ_le_succ (ih (fun c' hc' => hall c' (List.mem_cons_of_mem c hc')))

theorem matchList_iff (r : RE) (s t : List Char) :
    t ∈ matchList r s ↔ ∃ u, s = u ++ t ∧ Lang r u := by
  induction r generalizing s t with
  | fail => simp [matchList, Lang]
  | lit l =>
      constructor
      · intro h
        simp only [matchList] at h
        split at h
        · next hcond =>
            simp only [List.mem_singleton] at h
            subst h
            exact ⟨s.take l.length, (List.take_append_drop _ s).symm, hcond⟩
        · simp at h
      · rintro ⟨u, rfl, hl⟩
        have hlen : u.length = l.length := by
          rw [← hl, List.length_map]
        simp only [matchList]
        rw [← hlen, List.take_left, List.drop_left]
        rw [if_pos (show List.map Char.toLower u = l from hl)]
        exact List.mem_singleton.mpr rfl
  | cls p =>
      cases s with
      | nil =>
          simp only [matchList, List.not_mem_nil, false_iff]
          rintro ⟨u, hu, c, rfl, _⟩
          simp at hu
      | cons c rest =>
          simp only [matchList]
          constructor
          · intro h
            split at h
            · next hp =>
                simp only [List.mem_singleton] at h
                subst h
                exact ⟨[c], rfl, c, rfl, hp⟩
            · simp at h
          · rintro ⟨u, hu, c', rfl, hp⟩
            simp only [List.cons_append, List.singleton_append, List.cons.injEq] at hu
            obtain ⟨rfl, rfl⟩ := hu
            rw [if_pos hp]
            exact List.mem_singleton.mpr rfl
  | plus p =>
      simp only [matchList, List.mem_map, List.mem_range]
      constructor
      · rintro ⟨i, hi, rfl⟩
        refine ⟨s.take (countLeading p s - i), (List.take_append_drop _ s).symm, ?_, ?_⟩
        · have h1 : 1 ≤ countLeading p s - i := by omega
          have h2 : countLeading p s - i ≤ s.length :=
            Nat.le_trans (Nat.sub_le _ _) (countLeading_le_length p s)
          intro hnil
          have := congrArg List.length hnil
          simp only [List.length_take, List.length_nil] at this
          omega
        · exact fun c hc =>
            mem_take_countLeading p s _ (Nat.sub_le _ _) c hc
      · rintro ⟨u, rfl, hne, hall⟩
        have hm : u.length ≤ countLeading p (u ++ t) := countLeading_append_ge p u t hall
        have h1 : 1 ≤ u.length := by
          cases u with
          | nil => exact absurd rfl hne
          | cons _ _ => exact Nat.succ_le_succ (Nat.zero_le _)
        refine ⟨countLeading p (u ++ t) - u.length, ?_, ?_⟩
        · omega
        · have : countLeading p (u ++ t) - (countLeading p (u ++ t) - u.length) = u.length := by
            omega
          rw [this, List.drop_left]
  | star p =>
      simp only [matchList, List.mem_map, List.mem_range]
      constructor
      · rintro ⟨i, _, rfl⟩
        refine ⟨s.take (countLeading p s - i), (List.take_append_drop _ s).symm, ?_⟩
        exact fun c hc => mem_take_countLeading p s _ (Nat.sub_le _ _) c hc
      · rintro ⟨u, rfl, hall⟩
        have hm : u.length ≤ countLeading p (u ++ t) := countLeading_append_ge p u t hall
        refine ⟨countLeading p (u ++ t) - u.length, ?_, ?_⟩
        · omega
        · have : countLeading p (u ++ t) - (countLeading p (u ++ t) - u.length) = u.length := by
            omega
          rw [this, List.drop_left]
  | opt r ih =>
      simp only [matchList, List.mem_append, List.mem_singleton, ih]
      constructor
      · rintro (⟨u, rfl, hu⟩ | rfl)
        · exact ⟨u, rfl, Or.inl hu⟩
        · exact ⟨[], rfl, Or.inr rfl⟩
      · rintro ⟨u, rfl, hu | rfl⟩
        · exact Or.inl ⟨u, rfl, hu⟩
        · exact Or.inr rfl
  | cat r₁ r₂ ih₁ ih₂ =>
      simp only [matchList, List.mem_flatMap]
      constructor
      · rintro ⟨m, hm, ht⟩
        obtain ⟨v, rfl, hv⟩ := (ih₁ s m).mp hm
        obtain ⟨w, rfl, hw⟩ := (ih₂ m t).mp ht
        exact ⟨v ++ w, (List.append_assoc v w t).symm, v, w, rfl, hv, hw⟩
      · rintro ⟨u, rfl, v, w, rfl, hv, hw⟩
        refine ⟨w ++ t, ?_, ?_⟩
        · exact (ih₁ _ _).mpr ⟨v, List.append_assoc v w t, hv⟩
        · exact (ih₂ _ _).mpr ⟨w, rfl, hw⟩
  | alt r₁ r₂ ih₁ ih₂ =>
      simp only [matchList, List.mem_append, ih₁, ih₂, Lang]
      constructor
      · rintro (⟨u, rfl, hu⟩ | ⟨u, rfl, hu⟩)
        · exact ⟨u, rfl, Or.inl hu⟩
        · exact ⟨u, rfl, Or.inr hu⟩
      · rintro ⟨u, rfl, hu | hu⟩
        · exact Or.inl ⟨u, rfl, hu⟩
        · exact Or.inr ⟨u, rfl, hu⟩

/-! ## The noise filter (livekit_agent.py lines 61–131) -/

/-- Python `\s` on the ASCII range (space, tab, newline, carriage return,
vertical tab, form feed) — the whitespace the patterns and `str.strip()`
deal with. -/
def pyWhitespace (c : Char) : Bool :=
  decide (c = ' ' ∨ c = '\t' ∨ c = '\n' ∨ c = '\r' ∨ c = Char.ofNat 11 ∨ c = Char.ofNat 12)

/-- Python `\w` on the ASCII range. -/
def pyWordChar (c : Char) : Bool :=
  decide (('a' ≤ c ∧ c ≤ 'z') ∨ ('A' ≤ c ∧ c ≤ 'Z') ∨ ('0' ≤ c ∧ c ≤ '9') ∨ c = '_')

/-- The class `[\w\s]`. -/
def wordOrSpace (c : Char) : Bool := pyWordChar c || pyWhitespace c

/-- The class `[♪♫]`. -/
def musicNote (c : Char) : Bool := decide (c = '♪' ∨ c = '♫')

/-- Case-insensitive literal (stored lowercase). -/
def ciLit (s : String) : RE := RE.lit s.data

/-- `\s+`. -/
def wsPlus : RE := RE.plus pyWhitespace

/-- `\s*`. -/
def wsStar : RE := RE.star pyWhitespace

/-- `NOISE_STRIP_PATTERNS` (livekit_agent.py lines 65–114), in source order. -/
def NOISE_STRIP_PATTERNS : List RE := [
  -- r"\[blank[_ ]audio\]"
  RE.cat (ciLit "[blank") (RE.cat (RE.cls fun c => decide (c = '_' ∨ c = ' ')) (ciLit "audio]")),
  -- r"\(blank audio\)"
  ciLit "(blank audio)",
  ciLit "[silence]",
  ciLit "(silence)",
  ciLit "(no audio)",
  ciLit "[no audio]",
  ciLit "[inaudible]",
  -- r"\[music(?:\s+playing)?\]"
  RE.cat (ciLit "[music") (RE.cat (RE.opt (RE.cat wsPlus (ciLit "playing"))) (ciLit "]")),
  -- r"\(music(?:\s+playing)?\)"
  RE.cat (ciLit "(music") (RE.cat (RE.opt (RE.cat wsPlus (ciLit "playing"))) (ciLit ")")),
  ciLit "[applause]",
  ciLit "(applause)",
  ciLit "[laughter]",
  ciLit "(laughter)",
  ciLit "[typing]",
  ciLit "[clapping]",
  ciLit "[buzzing]",
  ciLit "[noise]",
  ciLit "(noise)",
  -- r"\[door\s+(?:opens|closes)\]"
  RE.cat (ciLit "[door") (RE.cat wsPlus (RE.cat (RE.alt (ciLit "opens") (ciLit "closes")) (ciLit "]"))),
  -- r"\(door\s+(?:opens|closes)\)"
  RE.cat (ciLit "(door") (RE.cat wsPlus (RE.cat (RE.alt (ciLit "opens") (ciLit "closes")) (ciLit ")"))),
  ciLit "[footsteps]",
  ciLit "(footsteps)",
  ciLit "[coughing]",
  ciLit "(coughing)",
  ciLit "[sighing]",
  ciLit "(sighing)",
  ciLit "[breathing]",
  ciLit "(breathing)",
  ciLit "[static]",
  ciLit "(static)",
  ciLit "[wind]",
  ciLit "(wind)",
  -- r"\[birds?\s+chirping\]"
  RE.cat (ciLit "[bird") (RE.cat (RE.opt (ciLit "s")) (RE.cat wsPlus (ciLit "chirping]"))),
  -- r"\(birds?\s+chirping\)"
  RE.cat (ciLit "(bird") (RE.cat (RE.opt (ciLit "s")) (RE.cat wsPlus (ciLit "chirping)"))),
  -- r"\[phone\s+ringing\]"
  RE.cat (ciLit "[phone") (RE.cat wsPlus (ciLit "ringing]")),
  -- r"\(phone\s+ringing\)"
  RE.cat (ciLit "(phone") (RE.cat wsPlus (ciLit "ringing)")),
  -- r"\[bell\s+rings?\]"
  RE.cat (ciLit "[bell") (RE.cat wsPlus (RE.cat (ciLit "ring") (RE.cat (RE.opt (ciLit "s")) (ciLit "]")))),
  -- r"\(bell\s+rings?\)"
  RE.cat (ciLit "(bell") (RE.cat wsPlus (RE.cat (ciLit "ring") (RE.cat (RE.opt (ciLit "s")) (ciLit ")")))),
  -- r"\[chimes?\]"
  RE.cat (ciLit "[chime") (RE.cat (RE.opt (ciLit "s")) (ciLit "]")),
  -- r"\(chimes?\)"
  RE.cat (ciLit "(chime") (RE.cat (RE.opt (ciLit "s")) (ciLit ")")),
  -- r"\[[\w\s]+(?:playing|music|noise|sound)\]"
  RE.cat (ciLit "[") (RE.cat (RE.plus wordOrSpace)
    (RE.cat (RE.alt (ciLit "playing") (RE.alt (ciLit "music") (RE.alt (ciLit "noise") (ciLit "sound"))))
      (ciLit "]"))),
  -- r"\([\w\s]+(?:playing|music|noise|sound)\)"
  RE.cat (ciLit "(") (RE.cat (RE.plus wordOrSpace)
    (RE.cat (RE.alt (ciLit "playing") (RE.alt (ciLit "music") (RE.alt (ciLit "noise") (ciLit "sound"))))
      (ciLit ")"))),
  -- r"[♪♫]+"
  RE.plus musicNote,
  -- r">>"
  ciLit ">>"]

/-- Ordered alternation of a pattern list (`"|".join(...)`). -/
def altList : List RE → RE
  | [] => RE.fail
  | [r] => r
  | r :: rest => RE.alt r (altList rest)

/-- `_NOISE_RE` (lines 117–120). -/
def noiseRE : RE := altList NOISE_STRIP_PATTERNS

/-- `_NOISE_RE.sub("", text)`: scan left to right; at each position commit to
the engine's first match (if any), emit nothing for it, and continue after
it; a position with no match emits its character.  Structural recursion on a
fuel initialized to the text length (any fuel ≥ the length computes the same
function). -/
def subAllFuel (r : RE) : Nat → List Char → List Char
  | _, [] => []
  | 0, s => s
  | fuel + 1, c :: rest =>
      match (matchList r (c :: rest)).head? with
      | some remaining =>
          if remaining.length < (c :: rest).length then subAllFuel r fuel remaining
          else c :: subAllFuel r fuel rest
      | none => c :: subAllFuel r fuel rest

def subAll (r : RE) (s : List Char) : List Char := subAllFuel r s.length s

/-- `_re.sub(r"\s{2,}", " ", cleaned)`: replace every maximal whitespace run
of length ≥ 2 by a single space (single whitespace characters are kept
as-is).  Fuel-structured like `subAllFuel`. -/
def collapseFuel : Nat → List Char → List Char
  | _, [] => []
  | 0, s => s
  | fuel + 1, c :: rest =>
      match rest with
      | [] => [c]
      | c2 :: _ =>
          if pyWhitespace c && pyWhitespace c2 then
            ' ' :: collapseFuel fuel (rest.dropWhile pyWhitespace)
          else
            c :: collapseFuel fuel rest

def collapseSpaces (s : List Char) : List Char := collapseFuel s.length s

/-- Python `str.strip()`: drop leading and trailing whitespace. -/
def pyStrip (s : List Char) : List Char :=
  List.rdropWhile pyWhitespace (List.dropWhile pyWhitespace s)

/-- `strip_noise` (livekit_agent.py lines 123–131): strip the artifact
patterns, collapse multiple spaces, trim. -/
def strip_noise (text : String) : String :=
  String.mk (pyStrip (collapseSpaces (subAll noiseRE text.data)))

/-! ## Voice commands (livekit_agent.py lines 133–151) -/

/-! The one entry of `_VOICE_COMMAND_PATTERNS` ("disable_auto_listen"),
lines 136–142:
`^\s*(?:(?:disable|stop|turn off|kill)\s+(?:auto[- ]?listen(?:ing)?|recording|microphone|the mic(?:rophone)?)|stop\s+listening)\s*\.?\s*$`.
`pattern.match` anchors at the start, and the trailing `$` (which may also
match just before a final newline — subsumed here, because the preceding
`\s*` can absorb that newline) forces the whole string, so the Python match
succeeds exactly when some parse consumes the entire input. -/
/-- `(?:disable|stop|turn off|kill)`. -/
def vcVerbRE : RE :=
  RE.alt (ciLit "disable") (RE.alt (ciLit "stop") (RE.alt (ciLit "turn off") (ciLit "kill")))

/-- `auto[- ]?listen(?:ing)?`. -/
def vcAutoListenRE : RE :=
  RE.cat (ciLit "auto")
    (RE.cat (RE.opt (RE.cls fun c => decide (c = '-' ∨ c = ' ')))
      (RE.cat (ciLit "listen") (RE.opt (ciLit "ing"))))

/-- `(?:auto[- ]?listen(?:ing)?|recording|microphone|the mic(?:rophone)?)`. -/
def vcObjRE : RE :=
  RE.alt vcAutoListenRE
    (RE.alt (ciLit "recording")
      (RE.alt (ciLit "microphone")
        (RE.cat (ciLit "the mic") (RE.opt (ciLit "rophone")))))

def vcCoreRE : RE :=
  RE.alt
    (RE.cat vcVerbRE (RE.cat wsPlus vcObjRE))
    (RE.cat (ciLit "stop") (RE.cat wsPlus (ciLit "listening")))

def vcRE : RE :=
  RE.cat wsStar (RE.cat vcCoreRE
    (RE.cat wsStar (RE.cat (RE.opt (RE.cls fun c => decide (c = '.'))) wsStar)))

/-- `match_voice_command` (lines 146–151): the name of the matched command,
or `none`. -/
def match_voice_command (text : String) : Option String :=
  if [] ∈ matchList vcRE text.data then some "disable_auto_listen" else none

/-- C7 is false: stripping is not idempotent, because a removal can splice
the surrounding text into a fresh artifact.  `">[silence]>"` first loses
`[silence]`, leaving `">>"` — itself a strip pattern (attribution artifact) —
which a second application removes entirely. -/
theorem strip_noise_not_idempotent :
    strip_noise (String.mk ['>', '[', 's', 'i', 'l', 'e', 'n', 'c', 'e', ']', '>']) =
      String.mk ['>', '>'] ∧
    strip_noise (String.mk ['>', '>']) = String.mk [] ∧
    strip_noise (strip_noise (String.mk ['>', '[', 's', 'i', 'l', 'e', 'n', 'c', 'e', ']', '>'])) ≠
      strip_noise (String.mk ['>', '[', 's', 'i', 'l', 'e', 'n', 'c', 'e', ']', '>']) := by
  refine ⟨by decide, by decide, by decide⟩

/-! ### Conditional idempotence of the noise filter -/

theorem dropWhile_head_false (p : Char → Bool) (l : List Char) (y : Char)
    (tl : List Char) (h : l.dropWhile p = y :: tl) : p y = false := by
  induction l with
  | nil => simp [List.dropWhile] at h
  | cons c rest ih =>
      rw [List.dropWhile_cons] at h
      split at h
      · exact ih h
      · next hc =>
          cases h
          exact Bool.not_eq_true _ ▸ (Bool.eq_false_iff.mpr hc)

/-- `pyStrip` is idempotent. -/
theorem pyStrip_idem (l : List Char) : pyStrip (pyStrip l) = pyStrip l := by
  obtain ⟨t, ht⟩ :=
    List.rdropWhile_prefix pyWhitespace (List.dropWhile pyWhitespace l)
  have hdb : List.dropWhile pyWhitespace (pyStrip l) = pyStrip l := by
    cases hb : pyStrip l with
    | nil => rfl
    | cons y tl =>
        have ha : List.dropWhile pyWhitespace l = y :: (tl ++ t) := by
          rw [← ht]
          unfold pyStrip at hb
          rw [hb]
          rfl
        have hy : pyWhitespace y = false := dropWhile_head_false pyWhitespace l y _ ha
        rw [List.dropWhile_cons, hy]
        simp
  show List.rdropWhile pyWhitespace (List.dropWhile pyWhitespace (pyStrip l)) = pyStrip l
  rw [hdb]
  exact List.rdropWhile_idempotent pyWhitespace (List.dropWhile pyWhitespace l)

/-- No two adjacent whitespace characters. -/
def NoDoubleWS (l : List Char) : Prop :=
  List.Chain' (fun a b => ¬ (pyWhitespace a = true ∧ pyWhitespace b = true)) l

theorem collapseFuel_nil (fuel : Nat) : collapseFuel fuel [] = [] := by
  cases fuel <;> rfl

theorem collapseFuel_cons_nonws (fuel : Nat) (x : Char) (xs : List Char)
    (hx : pyWhitespace x = false) :
    collapseFuel (fuel + 1) (x :: xs) = x :: collapseFuel fuel xs := by
  cases xs with
  | nil => rw [collapseFuel_nil]; rfl
  | cons c2 rest2 => simp [collapseFuel, hx]

theorem collapseFuel_good : ∀ (fuel : Nat) (s : List Char), s.length ≤ fuel →
    NoDoubleWS (collapseFuel fuel s) ∧
    (∀ x xs, s = x :: xs → pyWhitespace x = false →
      ∃ tl, collapseFuel fuel s = x :: tl) := by
  intro fuel
  induction fuel with
  | zero =>
      intro s hs
      have : s = [] := List.length_eq_zero.mp (Nat.le_zero.mp hs)
      subst this
      exact ⟨List.chain'_nil, fun x xs hxx _ => by cases hxx⟩
  | succ fuel ih =>
      intro s hs
      match s with
      | [] => exact ⟨List.chain'_nil, fun x xs hxx _ => by cases hxx⟩
      | [c] =>
          refine ⟨?_, ?_⟩
          · show List.Chain' _ [c]
            exact List.chain'_singleton c
          · rintro x xs ⟨rfl, rfl⟩ _
            exact ⟨[], rfl⟩
      | c :: c2 :: rest2 =>
          simp only [List.length_cons, Nat.succ_le_succ_iff] at hs
          by_cases hws : (pyWhitespace c && pyWhitespace c2) = true
          · have hstep : collapseFuel (fuel + 1) (c :: c2 :: rest2) =
                ' ' :: collapseFuel fuel ((c2 :: rest2).dropWhile pyWhitespace) := by
              simp only [collapseFuel]
              rw [if_pos hws]
            have hmlen : ((c2 :: rest2).dropWhile pyWhitespace).length ≤ fuel :=
              Nat.le_trans
                ((List.dropWhile_suffix pyWhitespace).sublist.length_le) hs
            have ihm := ih ((c2 :: rest2).dropWhile pyWhitespace) hmlen
            constructor
            · rw [hstep]
              rw [NoDoubleWS, List.chain'_cons']
              refine ⟨?_, ihm.1⟩
              intro y hy
              cases hm : (c2 :: rest2).dropWhile pyWhitespace with
              | nil =>
                  rw [hm, collapseFuel_nil] at hy
                  simp at hy
              | cons y₀ m' =>
                  have hy₀ : pyWhitespace y₀ = false :=
                    dropWhile_head_false pyWhitespace (c2 :: rest2) y₀ m' hm
                  obtain ⟨tl, htl⟩ := ihm.2 y₀ m' hm hy₀
                  rw [htl] at hy
                  simp only [List.head?_cons, Option.mem_def, Option.some.injEq] at hy
                  subst hy
                  intro hcon
                  rw [hy₀] at hcon
                  exact Bool.false_ne_true hcon.2
            · rintro x xs ⟨rfl, rfl⟩ hx
              rw [Bool.and_eq_true] at hws
              rw [hws.1] at hx
              cases hx
          · have hstep : collapseFuel (fuel + 1) (c :: c2 :: rest2) =
                c :: collapseFuel fuel (c2 :: rest2) := by
              simp only [collapseFuel]
              rw [if_neg hws]
            have ihr := ih (c2 :: rest2) hs
            constructor
            · rw [hstep, NoDoubleWS, List.chain'_cons']
              refine ⟨?_, ihr.1⟩
              intro y hy
              by_cases hc : pyWhitespace c = true
              · have hc2 : pyWhitespace c2 = false := by
                  cases h2 : pyWhitespace c2
                  · rfl
                  · exact absurd (by simp [hc, h2] : (pyWhitespace c && pyWhitespace c2) = true) hws
                obtain ⟨tl, htl⟩ := ihr.2 c2 rest2 rfl hc2
                rw [htl] at hy
                simp only [List.head?_cons, Option.mem_def, Option.some.injEq] at hy
                subst hy
                intro hcon
                rw [hc2] at hcon
                exact Bool.false_ne_true hcon.2
              · intro hcon
                exact hc hcon.1
            · rintro x xs ⟨rfl, rfl⟩ hx
              exact ⟨collapseFuel fuel (c2 :: rest2), hstep⟩

/-- `collapseSpaces` leaves no adjacent whitespace pair. -/
theorem collapseSpaces_noDoubleWS (s : List Char) : NoDoubleWS (collapseSpaces s) :=
  (collapseFuel_good s.length s (Nat.le_refl _)).1

theorem collapseFuel_eq_self : ∀ (fuel : Nat) (s : List Char), s.length ≤ fuel →
    NoDoubleWS s → collapseFuel fuel s = s := by
  intro fuel
  induction fuel with
  | zero =>
      intro s hs _
      have : s = [] := List.length_eq_zero.mp (Nat.le_zero.mp hs)
      subst this
      rfl
  | succ fuel ih =>
      intro s hs hnd
      match s with
      | [] => rfl
      | [c] => rfl
      | c :: c2 :: rest2 =>
          simp only [List.length_cons, Nat.succ_le_succ_iff] at hs
          have hR : ¬ (pyWhitespace c = true ∧ pyWhitespace c2 = true) :=
            (List.chain'_cons.mp hnd).1
          have hws : ¬ ((pyWhitespace c && pyWhitespace c2) = true) := by
            rw [Bool.and_eq_true]
            exact hR
          have : collapseFuel (fuel + 1) (c :: c2 :: rest2) =
              c :: collapseFuel fuel (c2 :: rest2) := by
            simp only [collapseFuel]
            rw [if_neg hws]
          rw [this, ih (c2 :: rest2) hs (List.Chain'.tail hnd)]

/-- A text with no adjacent whitespace pair is a fixed point of
`collapseSpaces`. -/
theorem collapseSpaces_eq_self (s : List Char) (h : NoDoubleWS s) :
    collapseSpaces s = s :=
  collapseFuel_eq_self s.length s (Nat.le_refl _) h

/-- The collapse-then-strip pipeline of `strip_noise` is idempotent. -/
theorem collapse_strip_idem (u : List Char) :
    pyStrip (collapseSpaces (pyStrip (collapseSpaces u))) =
      pyStrip (collapseSpaces u) := by
  have h1 : NoDoubleWS (collapseSpaces u) := collapseSpaces_noDoubleWS u
  have h2 : pyStrip (collapseSpaces u) <:+: collapseSpaces u := by
    have ha : pyStrip (collapseSpaces u) <+:
        List.dropWhile pyWhitespace (collapseSpaces u) :=
      List.rdropWhile_prefix pyWhitespace _
    have hb : List.dropWhile pyWhitespace (collapseSpaces u) <:+ collapseSpaces u :=
      List.dropWhile_suffix pyWhitespace
    exact ha.isInfix.trans hb.isInfix
  have h3 : NoDoubleWS (pyStrip (collapseSpaces u)) := List.Chain'.infix h1 h2
  rw [collapseSpaces_eq_self _ h3]
  exact pyStrip_idem (collapseSpaces u)

/-- C7 (amended): stripping is idempotent on every transcript whose stripped
form contains no residual artifact occurrence (i.e. whenever the pattern
removal pass leaves the once-cleaned text unchanged); the counterexample
`">[silence]>"` shows the unconditional claim fails exactly when a removal
splices a new artifact together. -/
theorem strip_noise_conditionally_idempotent (s : String)
    (h : subAll noiseRE (strip_noise s).data = (strip_noise s).data) :
    strip_noise (strip_noise s) = strip_noise s := by
  show String.mk (pyStrip (collapseSpaces (subAll noiseRE (strip_noise s).data))) =
    strip_noise s
  rw [h]
  show String.mk (pyStrip (collapseSpaces
    (pyStrip (collapseSpaces (subAll noiseRE s.data))))) = strip_noise s
  rw [collapse_strip_idem]
  rfl

/-- Witness for `strip_noise_conditionally_idempotent`: `"[music] hello"`
strips to `"hello"`, which contains no artifact, so a second strip is the
identity on it. -/
theorem strip_noise_conditionally_idempotent_witness :
    strip_noise (strip_noise (String.mk
      ['[', 'm', 'u', 's', 'i', 'c', ']', ' ', 'h', 'e', 'l', 'l', 'o'])) =
    strip_noise (String.mk
      ['[', 'm', 'u', 's', 'i', 'c', ']', ' ', 'h', 'e', 'l', 'l', 'o']) :=
  strip_noise_conditionally_idempotent
    (String.mk ['[', 'm', 'u', 's', 'i', 'c', ']', ' ', 'h', 'e', 'l', 'l', 'o'])
    (by decide)

/-! ## `SessionRoom._handle_utterance` (livekit_agent.py lines 385–457)

The registry lookup, the Whisper call and the WebSocket send are the
handler's external inputs: `session` is what `registry.get` returned,
`transcription` is Whisper's result (`none` = the call raised), and
`ws_send_ok` is whether `session.ws.send_text` succeeded.  The transcript
callback is attached by the relay server and its exceptions are swallowed
(`try/except: pass`), so it is recorded unconditionally. -/

namespace SessionRoom

def handle_utterance (st : RoomState) (session : Option Session)
    (transcription : Option String) (ws_send_ok : Bool) (caller : String)
    (now : Nat) : RoomState :=
  -- `if not self._audio_buffer: return`
  if st.audio_buffer.isEmpty then st
  else
    let st1 := match session with
      | some _ => notify_status st "thinking" (some "Transcribing speech...") false now
      | none => st
    match transcription with
    | none =>
        -- Whisper STT raised
        match session with
        | some _ =>
            let st2 := notify_status st1 "error"
              (some "Speech-to-text failed. Is Whisper running?") false now
            { st2 with emitted := st2.emitted ++ [.schedule_error_recovery] }
        | none => st1
    | some raw =>
        -- `cleaned = strip_noise(text.strip())`
        let text := strip_noise (String.mk (pyStrip raw.data))
        -- `if not text or len(text) < 2:` — noise-only
        if text = "" ∨ text.length < 2 then
          match session with
          | some _ => notify_status st1 "idle" none true now
          | none => st1
        else
          match match_voice_command text with
          | some cmd =>
              if cmd = "disable_auto_listen" then notify_status st1 "idle" none true now
              else st1
          | none =>
              match session with
              | none => st1
              | some sess =>
                  let st2 := { st1 with
                    emitted := st1.emitted ++ [.notify_transcript "user" text] }
                  match sess.ws with
                  | some _ =>
                      if ws_send_ok then
                        notify_status
                          { st2 with
                              emitted := st2.emitted ++ [.forward_to_session text caller]
                              waiting_for_response := true }
                          "thinking" (some "Waiting for Claude...") false now
                      else
                        { st2 with emitted := st2.emitted ++ [.unregister_session] }
                  | none => st2

end SessionRoom

/-- C8 as stated is false on one point: the disable-auto-listen notification
is emitted only if the session is still registered (`if session:` on
line 417).  When `registry.get` returned `None` — e.g. the session
unregistered while Whisper was transcribing — a noise-only utterance
produces no notification at all (and nothing else). -/
theorem noise_only_no_session_counterexample :
    (SessionRoom.handle_utterance
      { roomInit "abc123" with audio_buffer := [1] } none
      (some (String.mk ['[', 'm', 'u', 's', 'i', 'c', ']'])) true "caller-1" 5).emitted
      = [] := by
  decide

/-- C8 (amended): a transcript whose cleaned text is empty or shorter than
2 characters is classified noise-only: the handler forwards nothing to the
session transport and records nothing in the viewer transcript, and — when
the session is still registered — the new output is exactly the
"Transcribing speech..." progress notification followed by an `idle` status
notification carrying the disable-auto-listen hint, as its final action
before returning. -/
theorem noise_only_utterance (st : RoomState) (session : Option Session)
    (raw caller : String) (now : Nat) (wsok : Bool)
    (hbuf : st.audio_buffer.isEmpty = false)
    (hshort : strip_noise (String.mk (pyStrip raw.data)) = "" ∨
      (strip_noise (String.mk (pyStrip raw.data))).length < 2) :
    (SessionRoom.handle_utterance st session (some raw) wsok caller now).emitted =
      st.emitted ++
        (if session.isSome then
          [Effect.notify_status "thinking" (some "Transcribing speech...") false,
           Effect.notify_status "idle" none true]
         else []) := by
  unfold SessionRoom.handle_utterance
  rw [hbuf]
  cases session with
  | none =>
      simp only [Option.isSome_none, Bool.false_eq_true, if_neg, not_false_iff,
        List.append_nil]
      rw [if_pos hshort]
  | some sess =>
      simp only [Option.isSome_some, if_pos]
      rw [if_pos hshort]
      simp [SessionRoom.notify_status, List.append_assoc]

/-- Witness for `noise_only_utterance`: with a live session, a buffered
frame and the Whisper output `"[music]"` (which strips to `""`), the handler
emits exactly the progress notification and the idle + disable-auto-listen
notification. -/
theorem noise_only_utterance_witness :
    (SessionRoom.handle_utterance
      { roomInit "abc123" with audio_buffer := [1] }
      (some { session_id := "abc123", name := "n", cwd := "/p", dir_name := "p",
              ws := some 7, created_at := 0, last_heartbeat := 0,
              connected_clients := [] })
      (some (String.mk ['[', 'm', 'u', 's', 'i', 'c', ']'])) true "caller-1" 5).emitted =
      [Effect.notify_status "thinking" (some "Transcribing speech...") false,
       Effect.notify_status "idle" none true] := by
  have h := noise_only_utterance
    { roomInit "abc123" with audio_buffer := [1] }
    (some { session_id := "abc123", name := "n", cwd := "/p", dir_name := "p",
            ws := some 7, created_at := 0, last_heartbeat := 0,
            connected_clients := [] })
    (String.mk ['[', 'm', 'u', 's', 'i', 'c', ']']) "caller-1" 5 true
    (by decide) (by decide)
  simpa using h

/-! ## C9: exact-match semantics of `match_voice_command`

`VoiceCommandText` spells out, from the claim's words, when the *entire*
cleaned transcript — up to surrounding whitespace and one optional trailing
period — is a command phrase (the phrases being those of the voice-command
table, compared case-insensitively with flexible internal whitespace). -/

def AllWS (l : List Char) : Prop := ∀ c ∈ l, pyWhitespace c = true

def VerbWord (v : List Char) : Prop :=
  v.map Char.toLower = "disable".data ∨
  (v.map Char.toLower = "stop".data ∨
  (v.map Char.toLower = "turn off".data ∨ v.map Char.toLower = "kill".data))

def ObjectWord (o : List Char) : Prop :=
  (∃ a s l i, o = a ++ (s ++ (l ++ i)) ∧ a.map Char.toLower = "auto".data ∧
    (s = [] ∨ s = ['-'] ∨ s = [' ']) ∧ l.map Char.toLower = "listen".data ∧
    (i = [] ∨ i.map Char.toLower = "ing".data)) ∨
  (o.map Char.toLower = "recording".data ∨
  (o.map Char.toLower = "microphone".data ∨
  (∃ m r, o = m ++ r ∧ m.map Char.toLower = "the mic".data ∧
    (r = [] ∨ r.map Char.toLower = "rophone".data))))

def CommandPhrase (u : List Char) : Prop :=
  (∃ v w o, u = v ++ (w ++ o) ∧ VerbWord v ∧ w ≠ [] ∧ AllWS w ∧ ObjectWord o) ∨
  (∃ s w l, u = s ++ (w ++ l) ∧ s.map Char.toLower = "stop".data ∧ w ≠ [] ∧ AllWS w ∧
    l.map Char.toLower = "listening".data)

def VoiceCommandText (t : List Char) : Prop :=
  ∃ a core b d e, t = a ++ (core ++ (b ++ (d ++ e))) ∧ AllWS a ∧ CommandPhrase core ∧
    AllWS b ∧ (d = [] ∨ d = ['.']) ∧ AllWS e

theorem sep_opt_iff (s : List Char) :
    ((∃ c, s = [c] ∧ decide (c = '-' ∨ c = ' ') = true) ∨ s = []) ↔
      (s = [] ∨ s = ['-'] ∨ s = [' ']) := by
  constructor
  · rintro (⟨c, rfl, hc⟩ | rfl)
    · rw [decide_eq_true_eq] at hc
      rcases hc with rfl | rfl
      · exact Or.inr (Or.inl rfl)
      · exact Or.inr (Or.inr rfl)
    · exact Or.inl rfl
  · rintro (rfl | rfl | rfl)
    · exact Or.inr rfl
    · exact Or.inl ⟨'-', rfl, by decide⟩
    · exact Or.inl ⟨' ', rfl, by decide⟩

theorem dot_opt_iff (d : List Char) :
    ((∃ c, d = [c] ∧ decide (c = '.') = true) ∨ d = []) ↔ (d = [] ∨ d = ['.']) := by
  constructor
  · rintro (⟨c, rfl, hc⟩ | rfl)
    · rw [decide_eq_true_eq] at hc
      subst hc
      exact Or.inr rfl
    · exact Or.inl rfl
  · rintro (rfl | rfl)
    · exact Or.inr rfl
    · exact Or.inl ⟨'.', rfl, by decide⟩

theorem Lang_vcVerb_iff (v : List Char) : Lang vcVerbRE v ↔ VerbWord v := Iff.rfl

theorem Lang_vcAutoListen_iff (o : List Char) :
    Lang vcAutoListenRE o ↔
      (∃ a s l i, o = a ++ (s ++ (l ++ i)) ∧ a.map Char.toLower = "auto".data ∧
        (s = [] ∨ s = ['-'] ∨ s = [' ']) ∧ l.map Char.toLower = "listen".data ∧
        (i = [] ∨ i.map Char.toLower = "ing".data)) := by
  simp only [vcAutoListenRE, Lang, ciLit]
  constructor
  · rintro ⟨a, r, rfl, ha, s, r2, rfl, hs, l, i, rfl, hl, hi⟩
    exact ⟨a, s, l, i, rfl, ha, (sep_opt_iff s).mp hs, hl, hi.symm⟩
  · rintro ⟨a, s, l, i, rfl, ha, hs, hl, hi⟩
    exact ⟨a, s ++ (l ++ i), rfl, ha, s, l ++ i, rfl, (sep_opt_iff s).mpr hs,
      l, i, rfl, hl, hi.symm⟩

theorem Lang_vcObj_iff (o : List Char) : Lang vcObjRE o ↔ ObjectWord o := by
  simp only [vcObjRE, Lang, ciLit, ObjectWord]
  constructor
  · rintro (h | h | h | ⟨m, r, rfl, hm, hr⟩)
    · exact Or.inl ((Lang_vcAutoListen_iff o).mp h)
    · exact Or.inr (Or.inl h)
    · exact Or.inr (Or.inr (Or.inl h))
    · exact Or.inr (Or.inr (Or.inr ⟨m, r, rfl, hm, hr.symm⟩))
  · rintro (h | h | h | ⟨m, r, rfl, hm, hr⟩)
    · exact Or.inl ((Lang_vcAutoListen_iff o).mpr h)
    · exact Or.inr (Or.inl h)
    · exact Or.inr (Or.inr (Or.inl h))
    · exact Or.inr (Or.inr (Or.inr ⟨m, r, rfl, hm, hr.symm⟩))

theorem Lang_vcCore_iff (u : List Char) : Lang vcCoreRE u ↔ CommandPhrase u := by
  simp only [vcCoreRE, Lang, ciLit, CommandPhrase, wsPlus, AllWS]
  constructor
  · rintro (⟨v, rest, rfl, hv, w, o, rfl, ⟨hw1, hw2⟩, ho⟩ |
        ⟨s, rest, rfl, hs, w, l, rfl, ⟨hw1, hw2⟩, hl⟩)
    · exact Or.inl ⟨v, w, o, rfl, (Lang_vcVerb_iff v).mp hv, hw1, hw2,
        (Lang_vcObj_iff o).mp ho⟩
    · exact Or.inr ⟨s, w, l, rfl, hs, hw1, hw2, hl⟩
  · rintro (⟨v, w, o, rfl, hv, hw1, hw2, ho⟩ | ⟨s, w, l, rfl, hs, hw1, hw2, hl⟩)
    · exact Or.inl ⟨v, w ++ o, rfl, (Lang_vcVerb_iff v).mpr hv, w, o, rfl, ⟨hw1, hw2⟩,
        (Lang_vcObj_iff o).mpr ho⟩
    · exact Or.inr ⟨s, w ++ l, rfl, hs, w, l, rfl, ⟨hw1, hw2⟩, hl⟩

theorem Lang_vcRE_iff (t : List Char) : Lang vcRE t ↔ VoiceCommandText t := by
  simp only [vcRE, Lang, wsStar, VoiceCommandText, AllWS]
  constructor
  · rintro ⟨a, r1, rfl, ha, core, r2, rfl, hcore, b, r3, rfl, hb, d, e, rfl, hd, he⟩
    exact ⟨a, core, b, d, e, rfl, ha, (Lang_vcCore_iff core).mp hcore, hb,
      (dot_opt_iff d).mp hd, he⟩
  · rintro ⟨a, core, b, d, e, rfl, ha, hcore, hb, hd, he⟩
    exact ⟨a, core ++ (b ++ (d ++ e)), rfl, ha, core, b ++ (d ++ e), rfl,
      (Lang_vcCore_iff core).mpr hcore, b, d ++ e, rfl, hb, d, e, rfl,
      (dot_opt_iff d).mpr hd, he⟩

/-- C9: `match_voice_command` intercepts exactly the transcripts whose entire
text — up to surrounding whitespace and an optional trailing period — is one
of the command phrases (returning the command name `"disable_auto_listen"`),
and a transcript it does not match (in particular one merely *containing* a
command phrase among other words) is forwarded by the utterance handler to
the session like ordinary speech. -/
theorem match_voice_command_exact_match_only (t cmd : String) :
    (match_voice_command t = some cmd ↔
      cmd = "disable_auto_listen" ∧ VoiceCommandText t.data) ∧
    (match_voice_command t = none →
      ∀ (st : RoomState) (sess : Session) (h : Nat) (caller : String) (now : Nat),
        st.audio_buffer.isEmpty = false →
        strip_noise (String.mk (pyStrip t.data)) = t →
        ¬ (t = "" ∨ t.length < 2) →
        sess.ws = some h →
        (SessionRoom.handle_utterance st (some sess) (some t) true caller now).emitted =
          st.emitted ++
            [Effect.notify_status "thinking" (some "Transcribing speech...") false,
             Effect.notify_transcript "user" t,
             Effect.forward_to_session t caller,
             Effect.notify_status "thinking" (some "Waiting for Claude...") false]) := by
  constructor
  · by_cases hm : [] ∈ matchList vcRE t.data
    · rw [match_voice_command, if_pos hm]
      have hvc : VoiceCommandText t.data := by
        obtain ⟨u, hu, hl⟩ := (matchList_iff vcRE t.data []).mp hm
        rw [List.append_nil] at hu
        subst hu
        exact (Lang_vcRE_iff t.data).mp hl
      constructor
      · intro h
        have : "disable_auto_listen" = cmd := Option.some.inj h
        exact ⟨this.symm, hvc⟩
      · rintro ⟨rfl, _⟩
        rfl
    · rw [match_voice_command, if_neg hm]
      constructor
      · intro h
        cases h
      · rintro ⟨rfl, hvc⟩
        exact absurd ((matchList_iff vcRE t.data []).mpr
          ⟨t.data, (List.append_nil t.data).symm, (Lang_vcRE_iff t.data).mpr hvc⟩) hm
  · intro hnone st sess h caller now hbuf hclean hlen hws
    unfold SessionRoom.handle_utterance
    rw [hbuf]
    simp only [Bool.false_eq_true, if_neg, not_false_iff, hclean]
    rw [if_neg hlen, hnone, hws]
    simp [SessionRoom.notify_status, List.append_assoc]

/-- Witness for `match_voice_command_exact_match_only`: the transcript
`"please stop listening now"` merely contains the phrase "stop listening",
so it is not intercepted and the handler forwards it to the session. -/
theorem match_voice_command_exact_match_only_witness :
    (SessionRoom.handle_utterance
      { roomInit "abc123" with audio_buffer := [1] }
      (some { session_id := "abc123", name := "n", cwd := "/p", dir_name := "p",
              ws := some 7, created_at := 0, last_heartbeat := 0,
              connected_clients := [] })
      (some "please stop listening now") true "caller-1" 5).emitted =
      [Effect.notify_status "thinking" (some "Transcribing speech...") false,
       Effect.notify_transcript "user" "please stop listening now",
       Effect.forward_to_session "please stop listening now" "caller-1",
       Effect.notify_status "thinking" (some "Waiting for Claude...") false] := by
  have h := (match_voice_command_exact_match_only "please stop listening now"
      "disable_auto_listen").2 (by decide)
    { roomInit "abc123" with audio_buffer := [1] }
    { session_id := "abc123", name := "n", cwd := "/p", dir_name := "p",
      ws := some 7, created_at := 0, last_heartbeat := 0, connected_clients := [] }
    7 "caller-1" 5 (by decide) (by decide) (by decide) rfl
  simpa using h

/-! ## C3: the serialized TTS playback worker

`handle_claude_response` (lines 459–461) enqueues onto
`self._response_queue`; `_response_worker` (lines 463–472) is the single
task that repeatedly awaits `get()` and then awaits `_play_tts_response`
before looping.  Its cooperative-concurrency behaviour is a labelled
transition system: `enqueue` may interleave anywhere; the worker can start
playing only the queue head and only when no playback is open (it is one
task that does not dequeue again before `_play_tts_response` returns), and
can finish only the open playback. -/

inductive WorkerEvent where
  | enqueue (text : String)
  | startPlay (text : String)
  | finishPlay (text : String)
  deriving Repr, DecidableEq

structure WorkerState where
  queue : List String
  playing : Option String
  deriving Repr, DecidableEq

def workerInit : WorkerState := { queue := [], playing := none }

inductive WorkerStep : WorkerState → WorkerEvent → WorkerState → Prop where
  | enqueue (q : List String) (p : Option String) (s : String) :
      WorkerStep ⟨q, p⟩ (.enqueue s) ⟨q ++ [s], p⟩
  | startPlay (q : List String) (s : String) :
      WorkerStep ⟨s :: q, none⟩ (.startPlay s) ⟨q, some s⟩
  | finishPlay (q : List String) (s : String) :
      WorkerStep ⟨q, some s⟩ (.finishPlay s) ⟨q, none⟩

inductive WorkerTrace : WorkerState → List WorkerEvent → WorkerState → Prop where
  | nil (st : WorkerState) : WorkerTrace st [] st
  | cons {st₁ st₂ st₃ : WorkerState} {ev : WorkerEvent} {tr : List WorkerEvent} :
      WorkerStep st₁ ev st₂ → WorkerTrace st₂ tr st₃ → WorkerTrace st₁ (ev :: tr) st₃

def enqueuedOf (tr : List WorkerEvent) : List String :=
  tr.filterMap (fun e => match e with | .enqueue s => some s | _ => none)

def startedOf (tr : List WorkerEvent) : List String :=
  tr.filterMap (fun e => match e with | .startPlay s => some s | _ => none)

def finishedOf (tr : List WorkerEvent) : List String :=
  tr.filterMap (fun e => match e with | .finishPlay s => some s | _ => none)

def optList : Option String → List String
  | none => []
  | some s => [s]

theorem enqueuedOf_cons_enqueue (s : String) (tr : List WorkerEvent) :
    enqueuedOf (.enqueue s :: tr) = s :: enqueuedOf tr := rfl
theorem enqueuedOf_cons_start (s : String) (tr : List WorkerEvent) :
    enqueuedOf (.startPlay s :: tr) = enqueuedOf tr := rfl
theorem enqueuedOf_cons_finish (s : String) (tr : List WorkerEvent) :
    enqueuedOf (.finishPlay s :: tr) = enqueuedOf tr := rfl
theorem startedOf_cons_enqueue (s : String) (tr : List WorkerEvent) :
    startedOf (.enqueue s :: tr) = startedOf tr := rfl
theorem startedOf_cons_start (s : String) (tr : List WorkerEvent) :
    startedOf (.startPlay s :: tr) = s :: startedOf tr := rfl
theorem startedOf_cons_finish (s : String) (tr : List WorkerEvent) :
    startedOf (.finishPlay s :: tr) = startedOf tr := rfl
theorem finishedOf_cons_enqueue (s : String) (tr : List WorkerEvent) :
    finishedOf (.enqueue s :: tr) = finishedOf tr := rfl
theorem finishedOf_cons_start (s : String) (tr : List WorkerEvent) :
    finishedOf (.startPlay s :: tr) = finishedOf tr := rfl
theorem finishedOf_cons_finish (s : String) (tr : List WorkerEvent) :
    finishedOf (.finishPlay s :: tr) = s :: finishedOf tr := rfl

theorem workerTrace_conservation {st st' : WorkerState} {tr : List WorkerEvent}
    (h : WorkerTrace st tr st') :
    finishedOf tr ++ (optList st'.playing ++ st'.queue) =
      (optList st.playing ++ st.queue) ++ enqueuedOf tr ∧
    finishedOf tr ++ optList st'.playing = optList st.playing ++ startedOf tr := by
  induction h with
  | nil st => simp [enqueuedOf, startedOf, finishedOf]
  | cons step rest ih =>
      obtain ⟨ih₁, ih₂⟩ := ih
      cases step with
      | enqueue q p s =>
          rw [enqueuedOf_cons_enqueue, startedOf_cons_enqueue, finishedOf_cons_enqueue]
          constructor
          · rw [ih₁]
            simp [List.append_assoc]
          · exact ih₂
      | startPlay q s =>
          rw [enqueuedOf_cons_start, startedOf_cons_start, finishedOf_cons_start]
          constructor
          · rw [ih₁]
            simp [optList]
          · rw [ih₂]
            simp [optList]
      | finishPlay q s =>
          rw [enqueuedOf_cons_finish, startedOf_cons_finish, finishedOf_cons_finish,
            List.cons_append, List.cons_append, ih₁, ih₂]
          constructor
          · simp [optList]
          · simp [optList]

/-- C3: playback serialization.  Along any run of the playback system from
the initial state: the sequence of started playback cycles is a prefix of
the submission sequence (strict submission order); at every moment at most
one cycle is open (`started − finished ∈ {0, 1}`) — the worker finishes an
item before dequeuing the next, so cycles never overlap; and whenever the
system is quiescent again (queue drained, nothing playing), the completed
cycles are exactly the submitted texts: N submissions give exactly N cycles
in submission order. -/
theorem playback_serialization (tr : List WorkerEvent) (st : WorkerState)
    (htr : WorkerTrace workerInit tr st) :
    (startedOf tr <+: enqueuedOf tr) ∧
    (startedOf tr).length ≤ (finishedOf tr).length + 1 ∧
    (finishedOf tr).length ≤ (startedOf tr).length ∧
    (st = workerInit → finishedOf tr = enqueuedOf tr) := by
  obtain ⟨h₁, h₂⟩ := workerTrace_conservation htr
  have hip : optList workerInit.playing = [] := rfl
  have hiq : workerInit.queue = ([] : List String) := rfl
  rw [hip, hiq, List.nil_append, List.nil_append] at h₁
  rw [hip, List.nil_append] at h₂
  have hstq : startedOf tr ++ st.queue = enqueuedOf tr := by
    calc startedOf tr ++ st.queue
        = (finishedOf tr ++ optList st.playing) ++ st.queue := by rw [h₂]
      _ = finishedOf tr ++ (optList st.playing ++ st.queue) :=
          List.append_assoc _ _ _
      _ = enqueuedOf tr := h₁
  have hlen := congrArg List.length h₂
  simp only [List.length_append] at hlen
  refine ⟨⟨st.queue, hstq⟩, ?_, ?_, ?_⟩
  · cases hp : st.playing with
    | none => rw [hp] at hlen; simp [optList] at hlen; omega
    | some s => rw [hp] at hlen; simp [optList] at hlen; omega
  · cases hp : st.playing with
    | none => rw [hp] at hlen; simp [optList] at hlen; omega
    | some s => rw [hp] at hlen; simp [optList] at hlen; omega
  · intro hq
    subst hq
    rw [hip, List.nil_append, hiq, List.append_nil] at h₁
    exact h₁

/-- Witness for `playback_serialization`: the run
enqueue "a", enqueue "b", start "a", finish "a", start "b", finish "b"
returns to quiescence with both cycles done in order. -/
theorem playback_serialization_witness :
    (startedOf [WorkerEvent.enqueue "a", WorkerEvent.enqueue "b",
        WorkerEvent.startPlay "a", WorkerEvent.finishPlay "a",
        WorkerEvent.startPlay "b", WorkerEvent.finishPlay "b"] <+:
      enqueuedOf [WorkerEvent.enqueue "a", WorkerEvent.enqueue "b",
        WorkerEvent.startPlay "a", WorkerEvent.finishPlay "a",
        WorkerEvent.startPlay "b", WorkerEvent.finishPlay "b"]) ∧
    finishedOf [WorkerEvent.enqueue "a", WorkerEvent.enqueue "b",
        WorkerEvent.startPlay "a", WorkerEvent.finishPlay "a",
        WorkerEvent.startPlay "b", WorkerEvent.finishPlay "b"] =
      enqueuedOf [WorkerEvent.enqueue "a", WorkerEvent.enqueue "b",
        WorkerEvent.startPlay "a", WorkerEvent.finishPlay "a",
        WorkerEvent.startPlay "b", WorkerEvent.finishPlay "b"] := by
  have htr : WorkerTrace workerInit
      [WorkerEvent.enqueue "a", WorkerEvent.enqueue "b",
       WorkerEvent.startPlay "a", WorkerEvent.finishPlay "a",
       WorkerEvent.startPlay "b", WorkerEvent.finishPlay "b"] workerInit :=
    WorkerTrace.cons (WorkerStep.enqueue [] none "a")
      (WorkerTrace.cons (WorkerStep.enqueue ["a"] none "b")
        (WorkerTrace.cons (WorkerStep.startPlay ["b"] "a")
          (WorkerTrace.cons (WorkerStep.finishPlay ["b"] "a")
            (WorkerTrace.cons (WorkerStep.startPlay [] "b")
              (WorkerTrace.cons (WorkerStep.finishPlay [] "b")
                (WorkerTrace.nil workerInit))))))
  have h := playback_serialization _ _ htr
  exact ⟨h.1, h.2.2.2 rfl⟩
